import Mathlib

/-!
Shallow embedding of the position-correlation and telemetry-delivery core of
the MeskernelLaserApp repository (src/modules/api/drilling_data_service.py,
src/modules/api/gnss_location_service.py, src/modules/api/holes_api.py),
together with theorems settling the specification claims about it.

Real-valued quantities that Python stores in floats (timestamps, coordinates,
velocities) are modelled as rationals; machine time is passed explicitly as a
parameter wherever the code calls time.time().
-/

/-! ## Telemetry delivery path (drilling_data_service.py) -/

/-- A telemetry sample as built by `DrillingDataService.add_velocity_data`
(lines 63-67): velocity (m/s), depth (m) and a capture timestamp. -/
structure Sample where
  velocity_ms : ℚ
  depth_m : ℚ
  timestamp : ℚ
  deriving DecidableEq, Repr

/-- `collections.deque(maxlen=cap).append`: appends on the right; when the
deque already holds `cap` items the leftmost (oldest) item is evicted
(drilling_data_service.py line 30 creates the queue with `maxlen=1000`). -/
def dequeAppend (cap : ℕ) (q : List α) (x : α) : List α :=
  if q.length < cap then q ++ [x] else (q.drop (q.length + 1 - cap)) ++ [x]

/-- Mutable state of `DrillingDataService`: the optional hole id, the pending
queue, and the stats counters `total_sent` / `total_failed` /
`last_send_time` (lines 27-44). -/
structure DrillingState where
  hole_id : Option String
  data_queue : List Sample
  total_sent : ℕ
  total_failed : ℕ
  last_send_time : Option ℚ
  deriving DecidableEq, Repr

/-- `DrillingDataService.add_velocity_data` (lines 51-70): builds a sample and
appends it to the bounded queue (capacity 1000). -/
def add_velocity_data (st : DrillingState) (velocity_ms depth_m timestamp : ℚ) :
    DrillingState :=
  { st with data_queue :=
      dequeAppend 1000 st.data_queue ⟨velocity_ms, depth_m, timestamp⟩ }

/-- Outcome of the one `post_drilling_speed` HTTP call made by a flush:
`Except.ok true` models a response with `success: true`, `Except.ok false`
models any other response (including `None`), and `Except.error` models an
exception raised by the call. -/
abbrev ApiCall := Except Unit Bool

/-- `DrillingDataService._send_pending_data` (lines 119-179).  Returns the new
state together with the sample handed to `post_drilling_speed`, if any
(`none` means no submission was attempted).  The source takes only
`data_queue[-1]`, clears the whole queue and bumps `total_sent` /
`last_send_time` on success, and bumps `total_failed` leaving the queue alone
when the call reports failure or raises (the `except` block, lines 174-179). -/
def send_pending_data (st : DrillingState) (api : ApiCall) (now : ℚ) :
    DrillingState × Option Sample :=
  if st.hole_id = none then (st, none)
  else
    match h : st.data_queue with
    | [] => (st, none)
    | q₀ :: qs =>
      let latest := (q₀ :: qs).getLast (by simp)
      match api with
      | .ok true =>
          ({ st with data_queue := []
                     total_sent := st.total_sent + 1
                     last_send_time := some now }, some latest)
      | .ok false =>
          ({ st with total_failed := st.total_failed + 1 }, some latest)
      | .error _ =>
          ({ st with total_failed := st.total_failed + 1 }, some latest)

/-! ## Theorems: C8 (queue bound / ring-buffer) and C1 (flush semantics) -/

lemma dequeAppend_length_le (cap : ℕ) (hcap : 0 < cap) (q : List α) (x : α)
    (hq : q.length ≤ cap) : (dequeAppend cap q x).length ≤ cap := by
  unfold dequeAppend
  split <;> simp_all <;> omega

lemma dequeAppend_full (cap : ℕ) (q : List α) (x : α) (hq : q.length = cap) :
    dequeAppend cap q x = q.drop 1 ++ [x] := by
  unfold dequeAppend
  simp [hq]

/-- Folding `dequeAppend` over a list of new elements, starting from the empty
queue, keeps exactly the most recent `cap` elements in order. -/
lemma foldl_dequeAppend_eq_dropLast (cap : ℕ) (hcap : 0 < cap) :
    ∀ xs : List α, xs.foldl (dequeAppend cap) [] = xs.drop (xs.length - cap) := by
  intro xs
  suffices h : ∀ (xs q : List α), q.length ≤ cap →
      xs.foldl (dequeAppend cap) q = (q ++ xs).drop (q.length + xs.length - cap) by
    simpa using h xs [] (by simp)
  intro xs
  induction xs with
  | nil =>
      intro q hq
      simp [Nat.sub_eq_zero_of_le hq]
  | cons x xs ih =>
      intro q hq
      have hlen : (dequeAppend cap q x).length ≤ cap :=
        dequeAppend_length_le cap hcap q x hq
      rw [List.foldl_cons, ih (dequeAppend cap q x) hlen]
      unfold dequeAppend
      split
      · rename_i hlt
        have hidx : (q ++ [x]).length + xs.length - cap
            = q.length + (x :: xs).length - cap := by
          simp; omega
        rw [hidx, List.append_assoc, List.singleton_append]
      · rename_i hge
        push_neg at hge
        have hqcap : q.length = cap := le_antisymm hq hge
        have hidx : (q.drop (q.length + 1 - cap) ++ [x]).length + xs.length - cap
            = xs.length := by
          simp [hqcap]; omega
        have hidx2 : q.length + (x :: xs).length - cap = xs.length + 1 := by
          simp [hqcap]
        rw [hidx, hidx2]
        have h1 : q.length + 1 - cap = 1 := by omega
        have hsplit : q.drop (q.length + 1 - cap) ++ [x] ++ xs
            = (q ++ x :: xs).drop 1 := by
          rw [h1, List.drop_append_of_le_length (by omega)]
          simp
        rw [hsplit, List.drop_drop, Nat.add_comm]

/-- C8: the telemetry queue has hard capacity 1000 with ring-buffer
semantics: `add_velocity_data` never grows the queue past 1000 and preserves
insertion order; appending to a full queue evicts exactly the oldest entry;
and adding `1001` samples to an empty service retains exactly the most recent
1000 in order. -/
theorem C8_queue_capacity_ring_buffer
    (st : DrillingState) (v d t : ℚ) (hlen : st.data_queue.length ≤ 1000)
    (samples : List (ℚ × ℚ × ℚ)) (hs : samples.length = 1001) (st₀ : DrillingState)
    (hempty : st₀.data_queue = []) :
    (add_velocity_data st v d t).data_queue.length ≤ 1000 ∧
    (st.data_queue.length = 1000 →
      (add_velocity_data st v d t).data_queue
        = st.data_queue.drop 1 ++ [⟨v, d, t⟩]) ∧
    (samples.foldl (fun s p => add_velocity_data s p.1 p.2.1 p.2.2) st₀).data_queue
      = (samples.map (fun p => (⟨p.1, p.2.1, p.2.2⟩ : Sample))).drop 1 := by
  refine ⟨dequeAppend_length_le 1000 (by norm_num) _ _ hlen,
    fun hfull => dequeAppend_full 1000 _ _ hfull, ?_⟩
  have key : ∀ (l : List (ℚ × ℚ × ℚ)) (s : DrillingState),
      (l.foldl (fun s p => add_velocity_data s p.1 p.2.1 p.2.2) s).data_queue
        = (l.map (fun p => (⟨p.1, p.2.1, p.2.2⟩ : Sample))).foldl
            (dequeAppend 1000) s.data_queue := by
    intro l
    induction l with
    | nil => intro s; simp
    | cons p l ih =>
        intro s
        simp only [List.foldl_cons, List.map_cons, ih]
        rfl
  rw [key, hempty, foldl_dequeAppend_eq_dropLast 1000 (by norm_num)]
  simp [hs]

theorem C8_queue_capacity_ring_buffer_witness :
    ∃ st : DrillingState,
      st.data_queue.length ≤ 1000 ∧
      (List.replicate 1001 ((1 : ℚ), (2 : ℚ), (3 : ℚ))).length = 1001 ∧
      st.data_queue = [] ∧
      (add_velocity_data st 1 2 3).data_queue.length ≤ 1000 ∧
      ((List.replicate 1001 ((1 : ℚ), (2 : ℚ), (3 : ℚ))).foldl
          (fun s p => add_velocity_data s p.1 p.2.1 p.2.2) st).data_queue
        = ((List.replicate 1001 ((1 : ℚ), (2 : ℚ), (3 : ℚ))).map
            (fun p => (⟨p.1, p.2.1, p.2.2⟩ : Sample))).drop 1 := by
  refine ⟨⟨none, [], 0, 0, none⟩, by simp, by rw [List.length_replicate], rfl, ?_, ?_⟩
  · exact (C8_queue_capacity_ring_buffer ⟨none, [], 0, 0, none⟩ 1 2 3 (by simp)
      (List.replicate 1001 ((1 : ℚ), (2 : ℚ), (3 : ℚ))) (by rw [List.length_replicate])
      ⟨none, [], 0, 0, none⟩ rfl).1
  · exact (C8_queue_capacity_ring_buffer ⟨none, [], 0, 0, none⟩ 1 2 3 (by simp)
      (List.replicate 1001 ((1 : ℚ), (2 : ℚ), (3 : ℚ))) (by rw [List.length_replicate])
      ⟨none, [], 0, 0, none⟩ rfl).2.2

/-- C1: a flush of a non-empty queue submits only the most recent queued
sample; on success the whole queue is cleared, `total_sent` is incremented and
`last_send_time` is updated; on failure (unsuccessful response or exception)
the queue is exactly as before and `total_failed` is incremented. -/
theorem C1_flush_coalescing
    (st : DrillingState) (api : ApiCall) (now : ℚ)
    (hhole : st.hole_id ≠ none) (hne : st.data_queue ≠ []) :
    (send_pending_data st api now).2 = some (st.data_queue.getLast hne) ∧
    (api = .ok true →
      (send_pending_data st api now).1.data_queue = [] ∧
      (send_pending_data st api now).1.total_sent = st.total_sent + 1 ∧
      (send_pending_data st api now).1.last_send_time = some now) ∧
    (api ≠ .ok true →
      (send_pending_data st api now).1.data_queue = st.data_queue ∧
      (send_pending_data st api now).1.total_failed = st.total_failed + 1) := by
  obtain ⟨hid, q, s, f, l⟩ := st
  cases q with
  | nil => simp at hne
  | cons q₀ qs =>
    cases hid with
    | none => simp at hhole
    | some hidv =>
      rcases api with e | b
      · simp [send_pending_data]
      · cases b
        · simp [send_pending_data]
        · simp [send_pending_data]

theorem C1_flush_coalescing_witness :
    ((send_pending_data ⟨some "HK1", [⟨1,1,1⟩, ⟨2,2,2⟩, ⟨3,3,3⟩], 5, 6, none⟩
        (.ok true) 7).2 = some ⟨3,3,3⟩) ∧
    ((send_pending_data ⟨some "HK1", [⟨1,1,1⟩, ⟨2,2,2⟩, ⟨3,3,3⟩], 5, 6, none⟩
        (.ok true) 7).1.data_queue = [] ∧
     (send_pending_data ⟨some "HK1", [⟨1,1,1⟩, ⟨2,2,2⟩, ⟨3,3,3⟩], 5, 6, none⟩
        (.ok true) 7).1.total_sent = 6 ∧
     (send_pending_data ⟨some "HK1", [⟨1,1,1⟩, ⟨2,2,2⟩, ⟨3,3,3⟩], 5, 6, none⟩
        (.ok true) 7).1.last_send_time = some 7) ∧
    ((send_pending_data ⟨some "HK1", [⟨1,1,1⟩, ⟨2,2,2⟩, ⟨3,3,3⟩], 5, 6, none⟩
        (.ok false) 7).1.data_queue = [⟨1,1,1⟩, ⟨2,2,2⟩, ⟨3,3,3⟩] ∧
     (send_pending_data ⟨some "HK1", [⟨1,1,1⟩, ⟨2,2,2⟩, ⟨3,3,3⟩], 5, 6, none⟩
        (.ok false) 7).1.total_failed = 7) := by
  have h1 := C1_flush_coalescing
    ⟨some "HK1", [⟨1,1,1⟩, ⟨2,2,2⟩, ⟨3,3,3⟩], 5, 6, none⟩ (.ok true) 7
    (by simp) (by simp)
  have h2 := C1_flush_coalescing
    ⟨some "HK1", [⟨1,1,1⟩, ⟨2,2,2⟩, ⟨3,3,3⟩], 5, 6, none⟩ (.ok false) 7
    (by simp) (by simp)
  exact ⟨by simpa using h1.1, h1.2.1 rfl, h2.2.2 (by simp)⟩

/-! ## Hole directory with TTL cache (gnss_location_service.py) -/

/-- One hole as returned by the remote hole-listing API (keys `hole_id`/`id`,
`gps_lat`, `gps_lon`, `gps_elevation`; a missing key is `none`). -/
structure Hole where
  hole_id : Option String
  gps_lat : Option ℚ
  gps_lon : Option ℚ
  gps_elevation : Option ℚ
  deriving DecidableEq, Repr

/-- The cache fields of `GNSSLocationService` (lines 92-94):
`holes_cache` (initially `[]`) and `holes_cache_timestamp` (initially 0);
`cache_ttl` is passed explicitly (300.0 in the source). -/
structure CacheState where
  holes_cache : List Hole
  holes_cache_timestamp : ℚ
  deriving DecidableEq, Repr

/-- `GNSSLocationService._get_holes` (lines 303-326).  `now` is the value of
`time.time()`; `fetch` is the outcome of `api_client.get_all_holes`:
`some holes` models a response with `success` truthy and hole list `holes`,
`none` models a `None` result or an unsuccessful response.  The returned
`Bool` records whether a remote fetch was issued.  Note the cache-hit test is
`self.holes_cache and now - timestamp < ttl`: an *empty* cache is falsy and
always refetches. -/
def get_holes (cache_ttl : ℚ) (st : CacheState) (now : ℚ)
    (fetch : Option (List Hole)) : List Hole × CacheState × Bool :=
  if st.holes_cache ≠ [] ∧ now - st.holes_cache_timestamp < cache_ttl then
    (st.holes_cache, st, false)
  else
    match fetch with
    | some holes => (holes, ⟨holes, now⟩, true)
    | none => ([], st, true)

/-- Iterate `get_holes` over a sequence of calls, each given as
(time of call, remote outcome if a fetch is issued); returns the final cache
state and the number of remote fetches issued. -/
def get_holes_run (cache_ttl : ℚ) :
    CacheState → List (ℚ × Option (List Hole)) → CacheState × ℕ
  | st, [] => (st, 0)
  | st, c :: calls =>
      let r := get_holes cache_ttl st c.1 c.2
      let rest := get_holes_run cache_ttl r.2.1 calls
      (rest.1, (if r.2.2 then 1 else 0) + rest.2)

/-- A sample hole used in concrete counterexamples and witnesses. -/
def h0 : Hole := ⟨some "HK1", some 21, some 105, none⟩

/-- C4, counterexample: after a successful fetch (cache `[h0]` at time 0),
a call at time 300 (TTL expired) whose remote fetch fails returns the empty
list — the caller does *not* keep receiving the last good snapshot, even
though the cache still holds it. -/
theorem C4_counterexample :
    (get_holes 300 ⟨[], 0⟩ 0 (some [h0])).2.1 = ⟨[h0], 0⟩ ∧
    (get_holes 300 ⟨[h0], 0⟩ 300 none).1 = [] ∧
    (get_holes 300 ⟨[h0], 0⟩ 300 none).2.1.holes_cache = [h0] ∧
    (300 : ℚ) - 0 ≥ 300 := by
  refine ⟨?_, ?_, ?_, by norm_num⟩ <;> simp [get_holes, h0]

/-- C4, amended: when the remote fetch fails, the cache and its timestamp are
left untouched, but the call returns the empty list whenever a fetch was
issued (cache empty or TTL expired) — even if a previous fetch succeeded; the
last good snapshot is served (without fetching) exactly when the cache is
non-empty and unexpired. -/
theorem C4_fetch_failure_policy (ttl : ℚ) (st : CacheState) (now : ℚ) :
    (get_holes ttl st now none).2.1 = st ∧
    ((get_holes ttl st now none).2.2 = true → (get_holes ttl st now none).1 = []) ∧
    ((get_holes ttl st now none).2.2 = false →
      (get_holes ttl st now none).1 = st.holes_cache ∧ st.holes_cache ≠ [] ∧
        now - st.holes_cache_timestamp < ttl) := by
  unfold get_holes
  split
  · rename_i h
    exact ⟨rfl, by simp, fun _ => ⟨rfl, h.1, h.2⟩⟩
  · exact ⟨rfl, fun _ => rfl, by simp⟩

theorem C4_fetch_failure_policy_witness :
    (get_holes 300 ⟨[h0], 0⟩ 300 none).2.1 = ⟨[h0], 0⟩ ∧
    ((get_holes 300 ⟨[h0], 0⟩ 300 none).2.2 = true →
      (get_holes 300 ⟨[h0], 0⟩ 300 none).1 = []) := by
  have h := C4_fetch_failure_policy 300 ⟨[h0], 0⟩ 300
  exact ⟨h.1, h.2.1⟩

/-- C5, counterexample: a *successful* fetch that returns an empty hole list
(at time 0) does not put the cache into the TTL-hit state: the very next call
(time 1, well inside the 300 s window) issues another remote fetch, because
the cache-hit test requires a non-empty (truthy) cache. -/
theorem C5_counterexample :
    (get_holes 300 ⟨[], 0⟩ 0 (some [])).2 = (⟨[], 0⟩, true) ∧
    (get_holes 300 ⟨[], 0⟩ 1 (some [])).2.2 = true ∧
    (1 : ℚ) - 0 < 300 := by
  refine ⟨?_, ?_, by norm_num⟩ <;> simp [get_holes]

/-- C5, amended: after a successful fetch that returned a *non-empty* hole
list, no further remote fetch is issued for any number of calls whose times
stay inside the TTL window (and the cache state never changes), and a remote
fetch is issued again as soon as `now - fetchedAt ≥ ttl`. -/
theorem C5_ttl_fetch_discipline (ttl : ℚ) (st : CacheState)
    (calls : List (ℚ × Option (List Hole))) (now : ℚ) (fetch : Option (List Hole))
    (hne : st.holes_cache ≠ [])
    (hwin : ∀ c ∈ calls, c.1 - st.holes_cache_timestamp < ttl)
    (hstale : ttl ≤ now - st.holes_cache_timestamp) :
    get_holes_run ttl st calls = (st, 0) ∧
    (get_holes ttl st now fetch).2.2 = true := by
  constructor
  · induction calls with
    | nil => rfl
    | cons c rest ih =>
        have hc : c.1 - st.holes_cache_timestamp < ttl := hwin c (by simp)
        have hrest : ∀ x ∈ rest, x.1 - st.holes_cache_timestamp < ttl :=
          fun x hx => hwin x (by simp [hx])
        have hstep : get_holes ttl st c.1 c.2 = (st.holes_cache, st, false) := by
          unfold get_holes
          rw [if_pos ⟨hne, hc⟩]
        simp only [get_holes_run, hstep]
        simp [ih hrest]
  · unfold get_holes
    rw [if_neg (by push_neg; intro _; linarith)]
    cases fetch <;> rfl

theorem C5_ttl_fetch_discipline_witness :
    get_holes_run 300 ⟨[h0], 0⟩ [(10, none), (20, some []), (299, some [h0])]
      = (⟨[h0], 0⟩, 0) ∧
    (get_holes 300 ⟨[h0], 0⟩ 300 none).2.2 = true := by
  exact C5_ttl_fetch_discipline 300 ⟨[h0], 0⟩
    [(10, none), (20, some []), (299, some [h0])] 300 none
    (by simp [h0]) (by intro c hc; fin_cases hc <;> norm_num) (by norm_num)

/-! ## Nearest-hole matcher (gnss_location_service.py lines 328-351)

The loop body of `_find_nearest_hole` computes `haversine_distance` to each
hole that has both coordinates and keeps the strictly smaller distance.  The
haversine itself is floating-point trigonometry (not shallow-embeddable over
ℚ), so the distance function is taken as a parameter, exactly as the loop
uses it; `float('inf')` is modelled as `⊤ : WithTop ℚ`. -/

/-- One iteration of the `for hole in holes` loop of `_find_nearest_hole`:
holes lacking `gps_lat` or `gps_lon` are skipped (`continue`), otherwise the
accumulator is replaced when `distance < min_distance` (strict). -/
def findNearestStep (dist : ℚ → ℚ → ℚ → ℚ → ℚ) (lat lon : ℚ)
    (acc : Option Hole × WithTop ℚ) (hole : Hole) : Option Hole × WithTop ℚ :=
  match hole.gps_lat, hole.gps_lon with
  | some hlat, some hlon =>
      if (dist lat lon hlat hlon : WithTop ℚ) < acc.2 then
        (some hole, (dist lat lon hlat hlon : WithTop ℚ))
      else acc
  | _, _ => acc

/-- `GNSSLocationService._find_nearest_hole`: fold the loop body over the hole
list starting from `nearest_hole = None`, `min_distance = float('inf')`. -/
def find_nearest_hole (dist : ℚ → ℚ → ℚ → ℚ → ℚ) (holes : List Hole)
    (lat lon : ℚ) : Option Hole × WithTop ℚ :=
  holes.foldl (findNearestStep dist lat lon) (none, ⊤)

/-- The distance the loop would compute for one hole: `⊤` when a coordinate
is missing (such holes are never candidates). -/
def holeDist (dist : ℚ → ℚ → ℚ → ℚ → ℚ) (lat lon : ℚ) (h : Hole) : WithTop ℚ :=
  match h.gps_lat, h.gps_lon with
  | some a, some b => (dist lat lon a b : WithTop ℚ)
  | _, _ => ⊤

lemma findNearestStep_snd_le (dist : ℚ → ℚ → ℚ → ℚ → ℚ) (lat lon : ℚ)
    (acc : Option Hole × WithTop ℚ) (h : Hole) :
    (findNearestStep dist lat lon acc h).2 ≤ acc.2 := by
  unfold findNearestStep
  rcases hla : h.gps_lat with _ | a <;> rcases hlo : h.gps_lon with _ | b <;> simp
  split
  · rename_i hlt; exact le_of_lt hlt
  · exact le_refl _

lemma findNearestStep_snd_le_dist (dist : ℚ → ℚ → ℚ → ℚ → ℚ) (lat lon : ℚ)
    (acc : Option Hole × WithTop ℚ) (h : Hole) :
    (findNearestStep dist lat lon acc h).2 ≤ holeDist dist lat lon h := by
  unfold findNearestStep holeDist
  rcases hla : h.gps_lat with _ | a <;> rcases hlo : h.gps_lon with _ | b <;> simp
  split
  · rename_i hlt; exact le_refl _
  · rename_i hge; exact le_of_not_lt hge

lemma foldl_findNearest_snd_le (dist : ℚ → ℚ → ℚ → ℚ → ℚ) (lat lon : ℚ) :
    ∀ (holes : List Hole) (acc : Option Hole × WithTop ℚ),
      (holes.foldl (findNearestStep dist lat lon) acc).2 ≤ acc.2 ∧
      ∀ g ∈ holes, (holes.foldl (findNearestStep dist lat lon) acc).2
          ≤ holeDist dist lat lon g := by
  intro holes
  induction holes with
  | nil => intro acc; simp
  | cons h hs ih =>
      intro acc
      rw [List.foldl_cons]
      refine ⟨le_trans (ih _).1 (findNearestStep_snd_le dist lat lon acc h), ?_⟩
      intro g hg
      rcases List.mem_cons.mp hg with rfl | hg'
      · exact le_trans (ih _).1 (findNearestStep_snd_le_dist dist lat lon acc g)
      · exact (ih _).2 g hg'

lemma foldl_findNearest_provenance (dist : ℚ → ℚ → ℚ → ℚ → ℚ) (lat lon : ℚ) :
    ∀ (holes : List Hole) (acc : Option Hole × WithTop ℚ),
      holes.foldl (findNearestStep dist lat lon) acc = acc ∨
      ∃ g ∈ holes, ∃ a b, g.gps_lat = some a ∧ g.gps_lon = some b ∧
        holes.foldl (findNearestStep dist lat lon) acc
          = (some g, (dist lat lon a b : WithTop ℚ)) := by
  intro holes
  induction holes with
  | nil => intro acc; left; rfl
  | cons h hs ih =>
      intro acc
      rw [List.foldl_cons]
      rcases ih (findNearestStep dist lat lon acc h) with heq | ⟨g, hg, a, b, h1, h2, h3⟩
      · rw [heq]
        unfold findNearestStep
        rcases hla : h.gps_lat with _ | a <;> rcases hlo : h.gps_lon with _ | b
        · left; rfl
        · left; rfl
        · left; rfl
        · dsimp only
          split
          · right; exact ⟨h, by simp, a, b, hla, hlo, rfl⟩
          · left; rfl
      · right; exact ⟨g, by simp [hg], a, b, h1, h2, h3⟩

lemma foldl_findNearest_of_ge (dist : ℚ → ℚ → ℚ → ℚ → ℚ) (lat lon : ℚ) :
    ∀ (holes : List Hole) (acc : Option Hole × WithTop ℚ),
      (∀ g ∈ holes, acc.2 ≤ holeDist dist lat lon g) →
      holes.foldl (findNearestStep dist lat lon) acc = acc := by
  intro holes
  induction holes with
  | nil => intro acc _; rfl
  | cons h hs ih =>
      intro acc hge
      rw [List.foldl_cons]
      have hstep : findNearestStep dist lat lon acc h = acc := by
        unfold findNearestStep
        rcases hla : h.gps_lat with _ | a <;> rcases hlo : h.gps_lon with _ | b
        · rfl
        · rfl
        · rfl
        · dsimp only
          rw [if_neg]
          have := hge h (by simp)
          rw [holeDist, hla, hlo] at this
          exact not_lt_of_le this
      rw [hstep]
      exact ih acc (fun g hg => hge g (by simp [hg]))

/-- C2: `_find_nearest_hole` (i) returns `(none, +inf)` when no hole has
both coordinates; (ii) whenever it returns a hole, that hole is in the list,
has both coordinates, the returned distance is that hole's distance and is
minimal over every hole in the list; (iii) with a strict `<` comparison the
first hole attaining the minimum wins: if every earlier hole with coordinates
is strictly farther and every later hole no closer (ties allowed), the listed
hole is returned with its distance. -/
theorem C2_find_nearest_hole (dist : ℚ → ℚ → ℚ → ℚ → ℚ) (lat lon : ℚ)
    (holes₀ holes pre post : List Hole) (h : Hole) (d : WithTop ℚ) (a b : ℚ) :
    ((∀ g ∈ holes₀, g.gps_lat = none ∨ g.gps_lon = none) →
      find_nearest_hole dist holes₀ lat lon = (none, ⊤)) ∧
    (find_nearest_hole dist holes lat lon = (some h, d) →
      h ∈ holes ∧ holeDist dist lat lon h = d ∧ d ≠ ⊤ ∧
        ∀ g ∈ holes, d ≤ holeDist dist lat lon g) ∧
    (h.gps_lat = some a → h.gps_lon = some b →
      (∀ g ∈ pre, (dist lat lon a b : WithTop ℚ) < holeDist dist lat lon g) →
      (∀ g ∈ post, (dist lat lon a b : WithTop ℚ) ≤ holeDist dist lat lon g) →
      find_nearest_hole dist (pre ++ h :: post) lat lon
        = (some h, (dist lat lon a b : WithTop ℚ))) := by
  refine ⟨?_, ?_, ?_⟩
  · intro hnone
    apply foldl_findNearest_of_ge
    intro g hg
    rcases hnone g hg with h1 | h1 <;>
      · rw [holeDist]
        rcases hla : g.gps_lat with _ | x <;> rcases hlo : g.gps_lon with _ | y <;>
          simp_all
  · intro hres
    rcases foldl_findNearest_provenance dist lat lon holes (none, ⊤) with heq |
        ⟨g, hg, x, y, h1, h2, h3⟩
    · rw [find_nearest_hole] at hres
      rw [heq] at hres
      exact absurd (congrArg Prod.fst hres) (by simp)
    · rw [find_nearest_hole] at hres
      rw [h3] at hres
      simp only [Prod.mk.injEq, Option.some.injEq] at hres
      obtain ⟨rfl, hsnd⟩ := hres
      refine ⟨hg, ?_, ?_, ?_⟩
      · rw [holeDist, h1, h2]
        exact hsnd
      · rw [← hsnd]; exact WithTop.coe_ne_top
      · intro g' hg'
        have hle := (foldl_findNearest_snd_le dist lat lon holes (none, ⊤)).2 g' hg'
        rw [h3] at hle
        simpa [← hsnd] using hle
  · intro hla hlo hpre hpost
    unfold find_nearest_hole
    rw [List.foldl_append]
    have hacc : ∀ acc₀ : Option Hole × WithTop ℚ,
        acc₀ = pre.foldl (findNearestStep dist lat lon) (none, ⊤) →
        (dist lat lon a b : WithTop ℚ) < acc₀.2 := by
      intro acc₀ hacc₀
      rcases foldl_findNearest_provenance dist lat lon pre (none, ⊤) with heq |
          ⟨g, hg, x, y, h1, h2, h3⟩
      · rw [hacc₀, heq]
        exact WithTop.coe_lt_top _
      · rw [hacc₀, h3]
        have := hpre g hg
        rw [holeDist, h1, h2] at this
        exact this
    set acc₀ := pre.foldl (findNearestStep dist lat lon) (none, ⊤) with hacc₀
    have hlt := hacc acc₀ hacc₀
    rw [List.foldl_cons]
    have hstep : findNearestStep dist lat lon acc₀ h
        = (some h, (dist lat lon a b : WithTop ℚ)) := by
      unfold findNearestStep
      rw [hla, hlo]
      dsimp only
      rw [if_pos hlt]
    rw [hstep]
    apply foldl_findNearest_of_ge
    exact hpost

/-- A concrete distance function for the witness (squared euclidean); the
selection logic is independent of which metric is supplied. -/
def wDist (lat1 lon1 lat2 lon2 : ℚ) : ℚ :=
  (lat2 - lat1) * (lat2 - lat1) + (lon2 - lon1) * (lon2 - lon1)

theorem C2_find_nearest_hole_witness :
    find_nearest_hole wDist
      [⟨some "A", some 0, some 0, none⟩, ⟨some "B", some 0, some (1/1000), none⟩,
       ⟨some "C", some 0, some 10, none⟩] 0 0
      = (some (⟨some "A", some 0, some 0, none⟩ : Hole), ((0 : ℚ) : WithTop ℚ)) ∧
    find_nearest_hole wDist [⟨some "D", none, some 3, none⟩] 0 0 = (none, ⊤) := by
  constructor
  · have h := (C2_find_nearest_hole wDist 0 0 [] [] []
      [⟨some "B", some 0, some (1/1000), none⟩, ⟨some "C", some 0, some 10, none⟩]
      ⟨some "A", some 0, some 0, none⟩ ⊤ 0 0).2.2 rfl rfl
      (by intro g hg; simp at hg)
      (by
        intro g hg
        fin_cases hg
        · show (↑(wDist 0 0 0 0) : WithTop ℚ) ≤ ↑(wDist 0 0 0 (1/1000))
          rw [WithTop.coe_le_coe]
          simp only [wDist]
          norm_num
        · show (↑(wDist 0 0 0 0) : WithTop ℚ) ≤ ↑(wDist 0 0 0 10)
          rw [WithTop.coe_le_coe]
          simp only [wDist]
          norm_num)
    rw [List.nil_append] at h
    rw [h]
    simp [wDist]
  · exact (C2_find_nearest_hole wDist 0 0 [⟨some "D", none, some 3, none⟩] [] [] []
      ⟨some "D", none, some 3, none⟩ ⊤ 0 0).1 (by intro g hg; fin_cases hg; left; rfl)

/-! ## NMEA GGA sentence parsing (gnss_location_service.py lines 125-198) -/

/-- Normalized position produced by the parser: `{'lat': .., 'lon': ..,
'elevation': ..}`. -/
structure GpsData where
  lat : ℚ
  lon : ℚ
  elevation : ℚ
  deriving DecidableEq, Repr

/-- `'GGA' in s` for a list of characters: does `GGA` occur as a contiguous
substring? -/
def hasGGA : List Char → Bool
  | 'G' :: 'G' :: 'A' :: _ => true
  | _ :: rest => hasGGA rest
  | [] => false

/-- Python `str.startswith('$')`. -/
def startsWithDollar (s : String) : Bool :=
  match s.toList with
  | '$' :: _ => true
  | _ => false

/-- Python `str.split(',')`: splits on every comma, keeping empty fields. -/
def pySplitAux : List Char → List Char → List String
  | [], acc => [⟨acc.reverse⟩]
  | c :: cs, acc =>
      if c = ',' then ⟨acc.reverse⟩ :: pySplitAux cs []
      else pySplitAux cs (c :: acc)

def pySplit (s : String) : List String := pySplitAux s.toList []

/-- Python `str.find('.')` (restricted to the dot): index of the first `'.'`,
`none` when absent (the code guards with `'.' in raw`, so the `-1` case of
`find` is never used). -/
def findDotAux : List Char → ℕ → Option ℕ
  | [], _ => none
  | c :: cs, i => if c = '.' then some i else findDotAux cs (i + 1)

def findDot (s : String) : Option ℕ := findDotAux s.toList 0

/-- Python slice `s[:n]` with a possibly negative bound. -/
def pySliceTo (s : String) (n : ℤ) : String :=
  if 0 ≤ n then ⟨s.toList.take n.toNat⟩
  else ⟨s.toList.take (s.toList.length - (-n).toNat)⟩

/-- Python slice `s[n:]` with a possibly negative bound. -/
def pySliceFrom (s : String) (n : ℤ) : String :=
  if 0 ≤ n then ⟨s.toList.drop n.toNat⟩
  else ⟨s.toList.drop (s.toList.length - (-n).toNat)⟩

/-- Numeric value of a digit string. -/
def digitsToNat (cs : List Char) : ℕ :=
  cs.foldl (fun acc c => acc * 10 + (c.toNat - 48)) 0

/-- Raw decimal scan behind Python `float()` on the plain decimal literals the
NMEA fields carry (optional sign, digits, optional dot and fraction digits,
at least one digit): returns (negative?, integer digits, fraction digits,
number of fraction digits); `none` models the `ValueError` that `float()`
raises on anything else. -/
def pyFloatRaw (s : String) : Option (Bool × ℕ × ℕ × ℕ) :=
  let cs := s.toList
  let neg : Bool := match cs with | '-' :: _ => true | _ => false
  let cs := match cs with | '-' :: rest => rest | '+' :: rest => rest | cs => cs
  let ip := cs.takeWhile Char.isDigit
  let rest := cs.dropWhile Char.isDigit
  match rest with
  | [] => if ip.isEmpty then none else some (neg, digitsToNat ip, 0, 0)
  | '.' :: frac =>
      if frac.all Char.isDigit && !(ip.isEmpty && frac.isEmpty) then
        some (neg, digitsToNat ip, digitsToNat frac, frac.length)
      else none
  | _ => none

/-- Python `float()` on the decimal-literal strings used by the parser. -/
def pyFloat (s : String) : Option ℚ :=
  (pyFloatRaw s).map fun r =>
    (cond r.1 (-1) 1 : ℚ) * ((r.2.1 : ℚ) + (r.2.2.1 : ℚ) / (10 : ℚ) ^ r.2.2.2)

/-- `GNSSLocationService._parse_nmea_gpgga` (lines 125-198).  Any `$..GGA..`
talker prefix within the first 7 characters is accepted; the sentence is split
on commas and needs at least 10 fields; latitude uses fields 2/3, longitude
fields 4/5, altitude field 9 (0.0 on parse failure).  The degree/minute split
takes the digits up to 2 before the decimal point as whole degrees
(`deg_len = dot_idx - 2`, Python slices) and the rest as minutes / 60;
`S`/`W` negate.  A failed `float()` call anywhere raises and the enclosing
`except` returns `None`, which the `Option` bind models. -/
def parse_nmea_gpgga (nmea_str : String) : Option GpsData :=
  if startsWithDollar nmea_str && hasGGA (nmea_str.toList.take 7) then
    let parts := pySplit nmea_str
    if parts.length < 10 then none
    else
      let raw_lat := parts.getD 2 ""
      let lat_dir := parts.getD 3 ""
      if raw_lat = "" ∨ lat_dir = "" then none
      else
        match findDot raw_lat with
        | none => none
        | some dot_idx =>
          match pyFloat (pySliceTo raw_lat ((dot_idx : ℤ) - 2)),
                pyFloat (pySliceFrom raw_lat ((dot_idx : ℤ) - 2)) with
          | some lat_deg, some lat_min =>
            let lat0 := lat_deg + lat_min / 60
            let lat := if lat_dir = "S" then -lat0 else lat0
            let raw_lon := parts.getD 4 ""
            let lon_dir := parts.getD 5 ""
            if raw_lon = "" ∨ lon_dir = "" then none
            else
              match findDot raw_lon with
              | none => none
              | some dot_idx2 =>
                match pyFloat (pySliceTo raw_lon ((dot_idx2 : ℤ) - 2)),
                      pyFloat (pySliceFrom raw_lon ((dot_idx2 : ℤ) - 2)) with
                | some lon_deg, some lon_min =>
                  let lon0 := lon_deg + lon_min / 60
                  let lon := if lon_dir = "W" then -lon0 else lon0
                  some ⟨lat, lon, (pyFloat (parts.getD 9 "")).getD 0⟩
                | _, _ => none
          | _, _ => none
  else none

/-- C3: any `$`-sentence whose first 7 characters contain `GGA` (any talker
prefix) and that splits into at least 10 comma fields parses with the
degree/minute split: whole degrees are the digits ending exactly 2 before the
decimal point, the remaining last-two-digits-plus-fraction are minutes / 60,
and hemisphere `S`/`W` negates; altitude is field 9 (0 on failure).  The
result depends only on the fields, so talker-prefix variants with the same
fields parse identically. -/
theorem C3_nmea_deg_min_split (msg rawLat latDir rawLon lonDir : String)
    (fields : List String) (i j : ℕ) (dlat mlat dlon mlon : ℚ)
    (hstart : startsWithDollar msg = true)
    (hgga : hasGGA (msg.toList.take 7) = true)
    (hsplit : pySplit msg = fields)
    (hlen : 10 ≤ fields.length)
    (h2 : fields.getD 2 "" = rawLat) (h3 : fields.getD 3 "" = latDir)
    (h4 : fields.getD 4 "" = rawLon) (h5 : fields.getD 5 "" = lonDir)
    (hrl : rawLat ≠ "") (hld : latDir ≠ "")
    (hrn : rawLon ≠ "") (hlnd : lonDir ≠ "")
    (hdoti : findDot rawLat = some i)
    (hdotj : findDot rawLon = some j)
    (hdlat : pyFloat (pySliceTo rawLat ((i : ℤ) - 2)) = some dlat)
    (hmlat : pyFloat (pySliceFrom rawLat ((i : ℤ) - 2)) = some mlat)
    (hdlon : pyFloat (pySliceTo rawLon ((j : ℤ) - 2)) = some dlon)
    (hmlon : pyFloat (pySliceFrom rawLon ((j : ℤ) - 2)) = some mlon) :
    parse_nmea_gpgga msg = some ⟨
      (if latDir = "S" then -(dlat + mlat / 60) else dlat + mlat / 60),
      (if lonDir = "W" then -(dlon + mlon / 60) else dlon + mlon / 60),
      (pyFloat (fields.getD 9 "")).getD 0⟩ := by
  unfold parse_nmea_gpgga
  rw [hstart, hgga, hsplit]
  simp only [Bool.and_self, if_true, h2, h3, h4, h5, hdoti, hdotj, hdlat, hmlat,
    hdlon, hmlon]
  rw [if_neg (not_lt.mpr hlen), if_neg (by simp [hrl, hld]),
    if_neg (by simp [hrn, hlnd])]

/-- The example sentence from the spec and its talker-prefix variants. -/
def gpMsg : String :=
  "$GPGGA,090110,2104.431759,N,10546.62665,E,1,28,1.1,.00,M,-13.46,M,43,*66"

def gnMsg : String :=
  "$GNGGA,090110,2104.431759,N,10546.62665,E,1,28,1.1,.00,M,-13.46,M,43,*66"

def glMsg : String :=
  "$GLGGA,090110,2104.431759,N,10546.62665,E,1,28,1.1,.00,M,-13.46,M,43,*66"

def gpFields : List String :=
  ["$GPGGA", "090110", "2104.431759", "N", "10546.62665", "E", "1", "28",
   "1.1", ".00", "M", "-13.46", "M", "43", "*66"]

def gnFields : List String :=
  ["$GNGGA", "090110", "2104.431759", "N", "10546.62665", "E", "1", "28",
   "1.1", ".00", "M", "-13.46", "M", "43", "*66"]

def glFields : List String :=
  ["$GLGGA", "090110", "2104.431759", "N", "10546.62665", "E", "1", "28",
   "1.1", ".00", "M", "-13.46", "M", "43", "*66"]

theorem C3_nmea_deg_min_split_witness :
    parse_nmea_gpgga gpMsg
      = some ⟨21 + (4431759/1000000 : ℚ)/60, 105 + (4662665/100000 : ℚ)/60, 0⟩ ∧
    parse_nmea_gpgga gnMsg = parse_nmea_gpgga gpMsg ∧
    parse_nmea_gpgga glMsg = parse_nmea_gpgga gpMsg ∧
    |21 + (4431759/1000000 : ℚ)/60 - 21.0739| < 1/10000 ∧
    |105 + (4662665/100000 : ℚ)/60 - 105.7771| < 1/10000 := by
  have hdlat : pyFloat (pySliceTo "2104.431759" ((4 : ℤ) - 2)) = some 21 := by
    have h : pyFloatRaw (pySliceTo "2104.431759" ((4 : ℤ) - 2))
        = some (false, 21, 0, 0) := by decide
    simp only [pyFloat, h, Option.map_some', Option.some.injEq]
    norm_num
  have hmlat : pyFloat (pySliceFrom "2104.431759" ((4 : ℤ) - 2))
      = some (4431759/1000000 : ℚ) := by
    have h : pyFloatRaw (pySliceFrom "2104.431759" ((4 : ℤ) - 2))
        = some (false, 4, 431759, 6) := by decide
    simp only [pyFloat, h, Option.map_some', Option.some.injEq]
    norm_num
  have hdlon : pyFloat (pySliceTo "10546.62665" ((5 : ℤ) - 2)) = some 105 := by
    have h : pyFloatRaw (pySliceTo "10546.62665" ((5 : ℤ) - 2))
        = some (false, 105, 0, 0) := by decide
    simp only [pyFloat, h, Option.map_some', Option.some.injEq]
    norm_num
  have hmlon : pyFloat (pySliceFrom "10546.62665" ((5 : ℤ) - 2))
      = some (4662665/100000 : ℚ) := by
    have h : pyFloatRaw (pySliceFrom "10546.62665" ((5 : ℤ) - 2))
        = some (false, 46, 62665, 5) := by decide
    simp only [pyFloat, h, Option.map_some', Option.some.injEq]
    norm_num
  have halt : pyFloat ".00" = some 0 := by
    have h : pyFloatRaw ".00" = some (false, 0, 0, 2) := by decide
    simp only [pyFloat, h, Option.map_some', Option.some.injEq]
    norm_num
  have hgp := C3_nmea_deg_min_split gpMsg "2104.431759" "N" "10546.62665" "E"
    gpFields 4 5 21 (4431759/1000000) 105 (4662665/100000)
    (by decide) (by decide) (by decide) (by decide)
    rfl rfl rfl rfl
    (by decide) (by decide) (by decide) (by decide)
    (by decide) (by decide) hdlat hmlat hdlon hmlon
  have hgn := C3_nmea_deg_min_split gnMsg "2104.431759" "N" "10546.62665" "E"
    gnFields 4 5 21 (4431759/1000000) 105 (4662665/100000)
    (by decide) (by decide) (by decide) (by decide)
    rfl rfl rfl rfl
    (by decide) (by decide) (by decide) (by decide)
    (by decide) (by decide) hdlat hmlat hdlon hmlon
  have hgl := C3_nmea_deg_min_split glMsg "2104.431759" "N" "10546.62665" "E"
    glFields 4 5 21 (4431759/1000000) 105 (4662665/100000)
    (by decide) (by decide) (by decide) (by decide)
    rfl rfl rfl rfl
    (by decide) (by decide) (by decide) (by decide)
    (by decide) (by decide) hdlat hmlat hdlon hmlon
  refine ⟨?_, ?_, ?_, ?_, ?_⟩
  · rw [hgp, if_neg (show ¬("N" = "S") by decide), if_neg (show ¬("E" = "W") by decide),
      show gpFields.getD 9 "" = ".00" from rfl, halt]
    rfl
  · rw [hgn, hgp]
    rfl
  · rw [hgl, hgp]
    rfl
  · rw [abs_lt]
    constructor <;> norm_num
  · rw [abs_lt]
    constructor <;> norm_num

/-! ## Structured (JSON) message handling (`_on_mqtt_message`, lines 200-265) -/

/-- A Python value as the MQTT callback sees it. -/
inductive PyVal where
  | none : PyVal
  | bool : Bool → PyVal
  | num : ℚ → PyVal
  | str : String → PyVal
  | dict : List (String × PyVal) → PyVal
  | list : List PyVal → PyVal

/-- Python truthiness (`bool(v)`). -/
def PyVal.truthy : PyVal → Bool
  | .none => false
  | .bool b => b
  | .num q => !(decide (q = 0))
  | .str s => !s.toList.isEmpty
  | .dict kvs => !kvs.isEmpty
  | .list xs => !xs.isEmpty

/-- `v is None`. -/
def PyVal.isNone : PyVal → Bool
  | .none => true
  | _ => false

/-- `dict.get(k)`: the value under `k`, or `None` when absent. -/
def pyGet (kvs : List (String × PyVal)) (k : String) : PyVal :=
  match kvs with
  | [] => .none
  | (k', v) :: rest => if k' = k then v else pyGet rest k

/-- Python `a or b`: `a` when truthy, else `b`. -/
def pyOr (a b : PyVal) : PyVal := if a.truthy then a else b

/-- Python `float(v)`: numbers pass through, booleans become 0/1, strings are
parsed (`ValueError` on failure); anything else raises `TypeError`. -/
def pyFloatOf : PyVal → Except Unit ℚ
  | .num q => .ok q
  | .bool b => .ok (if b then 1 else 0)
  | .str s =>
      match pyFloat s with
      | some q => .ok q
      | Option.none => .error ()
  | _ => .error ()

/-- Python `str.strip()`. -/
def pyStrip (s : String) : String :=
  ⟨((s.toList.dropWhile Char.isWhitespace).reverse.dropWhile
      Char.isWhitespace).reverse⟩

/-- The coordinate extraction of `_on_mqtt_message` for a mapping payload
(lines 222-233, duplicated verbatim for decoded JSON strings at 240-251):
direct keys `lat`/`latitude`/`gps_lat`, `lon`/`longitude`/`gps_lon`,
`elevation`/`alt`/`gps_elevation` chained with Python `or`; when `lat` ends up
`None`, a nested mapping under `gps`/`location`/`gnss` is consulted with the
*shorter* chains `lat`/`latitude`, `lon`/`longitude`, `elevation`/`alt`
(overwriting all three variables). -/
def extractCoords (payload : List (String × PyVal)) : PyVal × PyVal × PyVal :=
  let lat := pyOr (pyOr (pyGet payload "lat") (pyGet payload "latitude"))
      (pyGet payload "gps_lat")
  let lon := pyOr (pyOr (pyGet payload "lon") (pyGet payload "longitude"))
      (pyGet payload "gps_lon")
  let elevation := pyOr (pyOr (pyGet payload "elevation") (pyGet payload "alt"))
      (pyGet payload "gps_elevation")
  if lat.isNone then
    match pyOr (pyOr (pyGet payload "gps") (pyGet payload "location"))
        (pyGet payload "gnss") with
    | .dict g =>
        (pyOr (pyGet g "lat") (pyGet g "latitude"),
         pyOr (pyGet g "lon") (pyGet g "longitude"),
         pyOr (pyGet g "elevation") (pyGet g "alt"))
    | _ => (lat, lon, elevation)
  else (lat, lon, elevation)

/-- Outcome of one callback invocation. -/
inductive MsgOutcome where
  | processed (lat lon : ℚ) (elevation : PyVal)
  | noPosition
  | errorLogged

/-- The `try:` body of `_on_mqtt_message` (lines 205-261): NMEA string first,
then mapping payloads, then JSON-decoded strings (`jp` is `json.loads`,
returning `none` on failure — the inner bare `except: pass`); a payload
without both coordinates is dropped as "no position"; otherwise
`float(lat)`/`float(lon)` (which may raise, `.error`) and
`_process_location` (`pl`, the downstream pipeline, which may raise) run.
`.error` is an exception reaching the end of the `try` body. -/
def payloadTriple (jp : String → Option PyVal) (payload : PyVal) :
    PyVal × PyVal × PyVal :=
  match payload with
  | .str s =>
      match (if startsWithDollar s then parse_nmea_gpgga (pyStrip s)
             else Option.none) with
      | some g => (.num g.lat, .num g.lon, .num g.elevation)
      | Option.none =>
          match jp s with
          | some (.dict kvs) => extractCoords kvs
          | _ => (.none, .none, .none)
  | .dict kvs => extractCoords kvs
  | _ => (.none, .none, .none)

def on_mqtt_message_try (jp : String → Option PyVal)
    (pl : ℚ → ℚ → PyVal → Except Unit Unit) (payload : PyVal) :
    Except Unit MsgOutcome :=
  let triple := payloadTriple jp payload
  if triple.1.isNone || triple.2.1.isNone then .ok .noPosition
  else
    match pyFloatOf triple.1, pyFloatOf triple.2.1 with
    | .ok a, .ok b =>
        match pl a b triple.2.2 with
        | .ok _ => .ok (.processed a b triple.2.2)
        | .error e => .error e
    | _, _ => .error ()

/-- `_on_mqtt_message`: bumps `messages_received` (outside the `try`), runs
the body, and catches any exception at the boundary (lines 262-265), logging
it; the callback always returns normally. -/
def on_mqtt_message (jp : String → Option PyVal)
    (pl : ℚ → ℚ → PyVal → Except Unit Unit)
    (messages_received : ℕ) (payload : PyVal) : ℕ × MsgOutcome :=
  let mr := messages_received + 1
  match on_mqtt_message_try jp pl payload with
  | .ok o => (mr, o)
  | .error _ => (mr, .errorLogged)

/-- C6, counterexample: the nested lookup does *not* use the same key aliases
as the direct lookup — `gps_lat`/`gps_lon` are only recognized at top level.
`{"gps": {"gps_lat": 21, "gps_lon": 105}}` yields "no position found" while
the same keys at top level parse to (21, 105). -/
theorem C6_counterexample :
    on_mqtt_message (fun _ => Option.none) (fun _ _ _ => .ok ()) 0
      (.dict [("gps", .dict [("gps_lat", .num 21), ("gps_lon", .num 105)])])
      = (1, .noPosition) ∧
    on_mqtt_message (fun _ => Option.none) (fun _ _ _ => .ok ()) 0
      (.dict [("gps_lat", .num 21), ("gps_lon", .num 105)])
      = (1, .processed 21 105 .none) := by
  constructor <;> rfl

/-- C6, amended: a mapping nested under `gps`, `location` or `gnss` parses to
the same normalized position as the same values under direct top-level keys,
for the aliases the nested lookup shares with the direct one
(`lat`/`latitude`, `lon`/`longitude`, `elevation`/`alt` — not
`gps_lat`/`gps_lon`/`gps_elevation`); within each chain the first listed
alias wins. -/
theorem C6_nested_alias_equivalence (jp : String → Option PyVal)
    (pl : ℚ → ℚ → PyVal → Except Unit Unit) (mr : ℕ) (v w u : ℚ)
    (hv : v ≠ 0) (hw : w ≠ 0) :
    on_mqtt_message jp pl mr
        (.dict [("gps", .dict [("lat", .num v), ("lon", .num w)])])
      = on_mqtt_message jp pl mr
        (.dict [("latitude", .num v), ("longitude", .num w)]) ∧
    on_mqtt_message jp pl mr
        (.dict [("location", .dict [("lat", .num v), ("lon", .num w)])])
      = on_mqtt_message jp pl mr
        (.dict [("lat", .num v), ("lon", .num w)]) ∧
    on_mqtt_message jp pl mr
        (.dict [("gnss", .dict [("lat", .num v), ("lon", .num w)])])
      = on_mqtt_message jp pl mr
        (.dict [("lat", .num v), ("lon", .num w)]) ∧
    extractCoords [("lat", .num v), ("latitude", .num u), ("lon", .num w)]
      = (.num v, .num w, .none) ∧
    extractCoords [("gps", .dict [("lat", .num v), ("latitude", .num u),
        ("lon", .num w)])]
      = (.num v, .num w, .none) := by
  refine ⟨?_, ?_, ?_, ?_, ?_⟩ <;>
    simp [on_mqtt_message, on_mqtt_message_try, payloadTriple, extractCoords,
      pyGet, pyOr, PyVal.truthy, PyVal.isNone, pyFloatOf, hv, hw]

theorem C6_nested_alias_equivalence_witness :
    on_mqtt_message (fun _ => Option.none) (fun _ _ _ => .ok ()) 0
        (.dict [("gps", .dict [("lat", .num 21), ("lon", .num 105)])])
      = on_mqtt_message (fun _ => Option.none) (fun _ _ _ => .ok ()) 0
        (.dict [("latitude", .num 21), ("longitude", .num 105)]) ∧
    extractCoords [("lat", .num 21), ("latitude", .num 7), ("lon", .num 105)]
      = (.num 21, .num 105, .none) := by
  have h := C6_nested_alias_equivalence (fun _ => Option.none)
    (fun _ _ _ => .ok ()) 0 21 105 7 (by norm_num) (by norm_num)
  exact ⟨h.1, h.2.2.2.1⟩

/-- C10, counterexample: a coordinate that is exactly 0 is *not* always
treated as absent — under the last alias of a chain (`gps_lat`) the Python
`or` chain returns the falsy 0 itself, which passes the `is None` check, so
`{"gps_lat": 0, "lon": 105}` is processed as position (0, 105). -/
theorem C10_counterexample :
    on_mqtt_message (fun _ => Option.none) (fun _ _ _ => .ok ()) 0
      (.dict [("gps_lat", .num 0), ("lon", .num 105)])
      = (1, .processed 0 105 .none) := by rfl

/-- C10, amended: the alias chains use truthiness (`or`), so a falsy value
under a non-final alias falls through to later aliases, and a coordinate is
treated as absent when the whole chain ends in `None`; in particular
`{"lat": 0.0, "lon": w}` with no nested mapping is discarded as "no position
found", while a 0 under the final alias of a chain survives (see the
counterexample). -/
theorem C10_truthiness_fallback (jp : String → Option PyVal)
    (pl : ℚ → ℚ → PyVal → Except Unit Unit) (mr : ℕ) (u w : ℚ)
    (hu : u ≠ 0) (hw : w ≠ 0) :
    on_mqtt_message jp pl mr (.dict [("lat", .num 0), ("lon", .num w)])
      = (mr + 1, .noPosition) ∧
    extractCoords [("lat", .num 0), ("latitude", .num u), ("lon", .num w)]
      = (.num u, .num w, .none) ∧
    extractCoords [("lat", .num 0), ("lon", .num w)] = (.none, .num w, .none) := by
  refine ⟨?_, ?_, ?_⟩ <;>
    simp [on_mqtt_message, on_mqtt_message_try, payloadTriple, extractCoords,
      pyGet, pyOr, PyVal.truthy, PyVal.isNone, pyFloatOf, hu, hw]

theorem C10_truthiness_fallback_witness :
    on_mqtt_message (fun _ => Option.none) (fun _ _ _ => .ok ()) 0
        (.dict [("lat", .num 0), ("lon", .num 105)])
      = (1, .noPosition) ∧
    extractCoords [("lat", .num 0), ("lon", .num 105)]
      = (.none, .num 105, .none) := by
  have h := C10_truthiness_fallback (fun _ => Option.none)
    (fun _ _ _ => .ok ()) 0 7 105 (by norm_num) (by norm_num)
  exact ⟨h.1, h.2.2⟩

/-- C7: no exception escapes the message callback or the flush worker.  The
callback always returns normally with `messages_received` bumped (whatever the
payload, the JSON decoder, or the downstream pipeline do); any exception
inside its `try` body becomes a logged drop; `{"foo": "bar"}` is a logged
"no position" and does not raise; and an exception thrown by the HTTP call
inside a flush is caught at the flush boundary — the queue is preserved,
nothing is counted as sent, and the attempt is counted as failed — so the
worker can serve the next tick. -/
theorem C7_no_exception_escapes (jp : String → Option PyVal)
    (pl : ℚ → ℚ → PyVal → Except Unit Unit) (mr : ℕ) (payload : PyVal)
    (st : DrillingState) (now : ℚ) (e : Unit) :
    (on_mqtt_message jp pl mr payload).1 = mr + 1 ∧
    (on_mqtt_message_try jp pl payload = .error e →
      on_mqtt_message jp pl mr payload = (mr + 1, .errorLogged)) ∧
    on_mqtt_message jp pl mr (.dict [("foo", .str "bar")]) = (mr + 1, .noPosition) ∧
    (send_pending_data st (.error e) now).1.data_queue = st.data_queue ∧
    (send_pending_data st (.error e) now).1.total_sent = st.total_sent ∧
    (st.hole_id ≠ none → st.data_queue ≠ [] →
      (send_pending_data st (.error e) now).1.total_failed = st.total_failed + 1) := by
  obtain ⟨hid, q, sc, fc, l⟩ := st
  refine ⟨?_, ?_, ?_, ?_, ?_, ?_⟩
  · unfold on_mqtt_message
    cases on_mqtt_message_try jp pl payload <;> rfl
  · intro h
    unfold on_mqtt_message
    rw [h]
  · rfl
  · cases hid <;> cases q <;> rfl
  · cases hid <;> cases q <;> rfl
  · intro hh hq
    cases hid with
    | none => simp at hh
    | some _ => cases q with
        | nil => simp at hq
        | cons a l' => rfl

theorem C7_no_exception_escapes_witness :
    (on_mqtt_message (fun _ => Option.none) (fun _ _ _ => .error ()) 0
        (.str "boom")).1 = 1 ∧
    on_mqtt_message (fun _ => Option.none) (fun _ _ _ => .error ()) 0
        (.dict [("foo", .str "bar")]) = (1, .noPosition) ∧
    (send_pending_data ⟨some "HK1", [⟨1, 1, 1⟩], 4, 5, none⟩ (.error ()) 9).1.data_queue
      = [⟨1, 1, 1⟩] ∧
    (send_pending_data ⟨some "HK1", [⟨1, 1, 1⟩], 4, 5, none⟩ (.error ()) 9).1.total_sent
      = 4 ∧
    (send_pending_data ⟨some "HK1", [⟨1, 1, 1⟩], 4, 5, none⟩ (.error ()) 9).1.total_failed
      = 6 := by
  have h := C7_no_exception_escapes (fun _ => Option.none) (fun _ _ _ => .error ())
    0 (.str "boom") ⟨some "HK1", [⟨1, 1, 1⟩], 4, 5, none⟩ 9 ()
  exact ⟨h.1, h.2.2.1, h.2.2.2.1, h.2.2.2.2.1,
    h.2.2.2.2.2 (by simp) (by simp)⟩

/-! ## Timestamp formatting (holes_api.py, `post_drilling_speed`, lines 240-289)

Python `datetime` arithmetic is proleptic-Gregorian; the civil/day
conversions below are the standard floor-division algorithms equivalent to
what `datetime`/`timedelta` compute (on ℤ, `/` and `%` are Euclidean, which
for these positive divisors is Python's floor `//` and `%`). -/

def daysFromCivil (y m d : ℤ) : ℤ :=
  let y' := if m ≤ 2 then y - 1 else y
  let era := y' / 400
  let yoe := y' - era * 400
  let mp := (m + 9) % 12
  let doy := (153 * mp + 2) / 5 + d - 1
  let doe := yoe * 365 + yoe / 4 - yoe / 100 + doy
  era * 146097 + doe - 719468

def civilFromDays (z0 : ℤ) : ℤ × ℤ × ℤ :=
  let z := z0 + 719468
  let era := z / 146097
  let doe := z - era * 146097
  let yoe := (doe - doe / 1460 + doe / 36524 - doe / 146096) / 365
  let y := yoe + era * 400
  let doy := doe - (365 * yoe + yoe / 4 - yoe / 100)
  let mp := (5 * doy + 2) / 153
  let d := doy - (153 * mp + 2) / 5 + 1
  let m := mp + (if mp < 10 then 3 else -9)
  (y + (if m ≤ 2 then 1 else 0), m, d)

set_option maxHeartbeats 4000000 in
lemma daysFromCivil_civilFromDays (z : ℤ) :
    daysFromCivil (civilFromDays z).1 (civilFromDays z).2.1
      (civilFromDays z).2.2 = z := by
  have key : ∀ doe yoe doy : ℤ, 0 ≤ doe → doe < 146097 →
      yoe = (doe - doe / 1460 + doe / 36524 - doe / 146096) / 365 →
      doy = doe - (365 * yoe + yoe / 4 - yoe / 100) →
      (0 ≤ doy ∧ doy ≤ 366) ∧ 0 ≤ yoe ∧ yoe ≤ 399 := by
    intro doe yoe doy h1 h2 hy hd
    have hb1 : 0 ≤ yoe := by omega
    have hb2 : yoe ≤ 399 := by omega
    refine ⟨?_, hb1, hb2⟩
    interval_cases yoe <;> omega
  unfold daysFromCivil civilFromDays
  dsimp only
  set z' := z + 719468 with hz'
  set era := z' / 146097 with hera
  set doe := z' - era * 146097 with hdoe
  set yoe := (doe - doe / 1460 + doe / 36524 - doe / 146096) / 365 with hyoe
  set doy := doe - (365 * yoe + yoe / 4 - yoe / 100) with hdoy
  set mp := (5 * doy + 2) / 153 with hmp
  have hdoe1 : 0 ≤ doe := by omega
  have hdoe2 : doe < 146097 := by omega
  have hk := key doe yoe doy hdoe1 hdoe2 hyoe hdoy
  have hmpb : 0 ≤ mp ∧ mp ≤ 11 := by omega
  have h400 : (yoe + era * 400) / 400 = era := by omega
  have hsub : yoe + era * 400 - era * 400 = yoe := by ring
  have hmod1 : (mp + 12) % 12 = mp := by omega
  have hmod2 : mp % 12 = mp := by omega
  split_ifs <;>
    (try simp only [add_zero, Int.add_sub_cancel,
      show ∀ a : ℤ, a + -9 + 9 = a from fun a => by ring,
      show ∀ a : ℤ, a + 3 + 9 = a + 12 from fun a => by ring]) <;>
    (try rw [h400]) <;> (try rw [hsub]) <;>
    (try rw [hmod1]) <;> (try rw [hmod2]) <;>
    omega

/-- Python datetime: proleptic-Gregorian components, microseconds, and an
optional fixed `utcoffset` in minutes (`tzinfo`; `none` = naive). -/
structure PyDateTime where
  year : ℤ
  month : ℤ
  day : ℤ
  hour : ℤ
  minute : ℤ
  second : ℤ
  microsecond : ℕ
  tz_offset_minutes : Option ℤ

/-- The instant a datetime's components denote, as seconds since the epoch
(ignoring the offset and the sub-second part). -/
def PyDateTime.toEpochSeconds (dt : PyDateTime) : ℤ :=
  daysFromCivil dt.year dt.month dt.day * 86400
    + dt.hour * 3600 + dt.minute * 60 + dt.second

/-- `timestamp.astimezone(timezone.utc)` on an aware datetime (the only case
the code passes to it): shift the instant by the utcoffset and recompute the
civil components; microseconds are carried over. -/
def astimezoneUTC (dt : PyDateTime) : PyDateTime :=
  match dt.tz_offset_minutes with
  | Option.none => dt
  | some o =>
      let s := dt.toEpochSeconds - o * 60
      let days := s / 86400
      let rem := s % 86400
      let c := civilFromDays days
      { year := c.1, month := c.2.1, day := c.2.2,
        hour := rem / 3600,
        minute := rem % 3600 / 60,
        second := rem % 60,
        microsecond := dt.microsecond,
        tz_offset_minutes := some 0 }

/-- `datetime.utcfromtimestamp` (drilling_data_service.py line 142): a naive
UTC datetime from an epoch timestamp; the fractional second becomes
`microsecond`. -/
def utcfromtimestamp (s : ℤ) (micro : ℕ) : PyDateTime :=
  let days := s / 86400
  let rem := s % 86400
  let c := civilFromDays days
  ⟨c.1, c.2.1, c.2.2, rem / 3600, rem % 3600 / 60, rem % 60, micro,
   Option.none⟩

def digitChar (n : ℤ) : Char := Char.ofNat (48 + (n % 10).toNat)

/-- `timestamp.strftime("%Y-%m-%dT%H:%M:%S")`: the fixed-width zero-padded
rendering (`%Y` 4 digits, the rest 2, for the component ranges `datetime`
guarantees), at seconds resolution — the `microsecond` field is never
printed. -/
def strftime_iso (dt : PyDateTime) : String :=
  ⟨[digitChar (dt.year / 1000), digitChar (dt.year / 100),
    digitChar (dt.year / 10), digitChar dt.year, '-',
    digitChar (dt.month / 10), digitChar dt.month, '-',
    digitChar (dt.day / 10), digitChar dt.day, 'T',
    digitChar (dt.hour / 10), digitChar dt.hour, ':',
    digitChar (dt.minute / 10), digitChar dt.minute, ':',
    digitChar (dt.second / 10), digitChar dt.second]⟩

/-- The timestamp formatting of `HolesAPIClient.post_drilling_speed`
(lines 266-277): naive datetimes are formatted directly (treated as UTC),
aware ones are converted with `astimezone(timezone.utc)` first; either way a
literal `"Z"` is appended. -/
def post_drilling_speed_timestamp (dt : PyDateTime) : String :=
  match dt.tz_offset_minutes with
  | Option.none => strftime_iso dt ++ "Z"
  | some _ => strftime_iso (astimezoneUTC dt) ++ "Z"

lemma digit_char_aux : ∀ k : ℕ, k < 10 → (Char.ofNat (48 + k)).isDigit = true := by
  decide

lemma digitChar_isDigit (n : ℤ) : (digitChar n).isDigit = true :=
  digit_char_aux _ (by omega)

set_option maxHeartbeats 1000000 in
lemma strftime_iso_z_chars (u : PyDateTime) :
    (strftime_iso u ++ "Z").length = 20 ∧
    (strftime_iso u ++ "Z").toList.getLast? = some 'Z' ∧
    ∀ c ∈ (strftime_iso u ++ "Z").toList,
      c.isDigit = true ∨ c = '-' ∨ c = ':' ∨ c = 'T' ∨ c = 'Z' := by
  obtain ⟨y, mo, d, h, mi, s, mic, tz⟩ := u
  refine ⟨rfl, rfl, ?_⟩
  intro c hc
  have hl : (strftime_iso ⟨y, mo, d, h, mi, s, mic, tz⟩ ++ "Z").toList
      = [digitChar (y / 1000), digitChar (y / 100), digitChar (y / 10),
         digitChar y, '-', digitChar (mo / 10), digitChar mo, '-',
         digitChar (d / 10), digitChar d, 'T', digitChar (h / 10),
         digitChar h, ':', digitChar (mi / 10), digitChar mi, ':',
         digitChar (s / 10), digitChar s, 'Z'] := rfl
  rw [hl] at hc
  fin_cases hc <;>
    first
      | exact Or.inl (digitChar_isDigit _)
      | simp

lemma epochSeconds_of_civil (s : ℤ) (μ : ℕ) (tz : Option ℤ) :
    PyDateTime.toEpochSeconds
      ⟨(civilFromDays (s / 86400)).1, (civilFromDays (s / 86400)).2.1,
       (civilFromDays (s / 86400)).2.2, s % 86400 / 3600,
       s % 86400 % 3600 / 60, s % 86400 % 60, μ, tz⟩ = s := by
  simp only [PyDateTime.toEpochSeconds, daysFromCivil_civilFromDays]
  omega

/-- C9: every timestamp submitted to the drilling-speed endpoint is a
seconds-resolution UTC ISO-8601 string with a literal `Z` suffix: a naive
input is formatted directly (treated as UTC); an aware input is first
converted to UTC (the converted datetime denotes the same instant, shifted
out of its offset, and carries offset 0); and for every input the output is
exactly 20 characters `YYYY-MM-DDTHH:MM:SSZ` — it ends in `Z`, every
character is a digit or one of `-:TZ` (so no `.` sub-second part and no
`+hh:mm` offset form), and the `microsecond` field never influences it. -/
theorem C9_timestamp_utc_iso_z (dtn dta : PyDateTime) (o : ℤ) (μ : ℕ)
    (htn : dtn.tz_offset_minutes = Option.none)
    (hta : dta.tz_offset_minutes = some o) :
    post_drilling_speed_timestamp dtn = strftime_iso dtn ++ "Z" ∧
    post_drilling_speed_timestamp dta
      = strftime_iso (astimezoneUTC dta) ++ "Z" ∧
    (astimezoneUTC dta).toEpochSeconds = dta.toEpochSeconds - o * 60 ∧
    (astimezoneUTC dta).tz_offset_minutes = some 0 ∧
    (∀ dt : PyDateTime,
      (post_drilling_speed_timestamp dt).length = 20 ∧
      (post_drilling_speed_timestamp dt).toList.getLast? = some 'Z' ∧
      (∀ c ∈ (post_drilling_speed_timestamp dt).toList,
        c.isDigit = true ∨ c = '-' ∨ c = ':' ∨ c = 'T' ∨ c = 'Z') ∧
      post_drilling_speed_timestamp { dt with microsecond := μ }
        = post_drilling_speed_timestamp dt) := by
  refine ⟨?_, ?_, ?_, ?_, ?_⟩
  · simp [post_drilling_speed_timestamp, htn]
  · simp [post_drilling_speed_timestamp, hta]
  · simp only [astimezoneUTC, hta]
    exact epochSeconds_of_civil (dta.toEpochSeconds - o * 60) dta.microsecond
      (some 0)
  · simp [astimezoneUTC, hta]
  · intro dt
    obtain ⟨y, mo, d, h, mi, sec, mic, tz⟩ := dt
    cases tz with
    | none =>
        exact ⟨(strftime_iso_z_chars _).1, (strftime_iso_z_chars _).2.1,
          (strftime_iso_z_chars _).2.2, rfl⟩
    | some o' =>
        exact ⟨(strftime_iso_z_chars _).1, (strftime_iso_z_chars _).2.1,
          (strftime_iso_z_chars _).2.2, rfl⟩

theorem C9_timestamp_utc_iso_z_witness :
    post_drilling_speed_timestamp ⟨2025, 12, 3, 10, 30, 0, 500000, Option.none⟩
      = "2025-12-03T10:30:00Z" ∧
    post_drilling_speed_timestamp ⟨2025, 12, 3, 10, 30, 0, 0, some 420⟩
      = "2025-12-03T03:30:00Z" ∧
    post_drilling_speed_timestamp ⟨2025, 12, 3, 1, 30, 0, 0, some 420⟩
      = "2025-12-02T18:30:00Z" ∧
    post_drilling_speed_timestamp (utcfromtimestamp 1764757800 0)
      = "2025-12-03T10:30:00Z" ∧
    (astimezoneUTC ⟨2025, 12, 3, 10, 30, 0, 0, some 420⟩).toEpochSeconds
      = (⟨2025, 12, 3, 10, 30, 0, 0, some 420⟩ : PyDateTime).toEpochSeconds
          - 420 * 60 ∧
    (post_drilling_speed_timestamp ⟨2025, 12, 3, 10, 30, 0, 500000, Option.none⟩).length
      = 20 := by
  have h := C9_timestamp_utc_iso_z ⟨2025, 12, 3, 10, 30, 0, 500000, Option.none⟩
    ⟨2025, 12, 3, 10, 30, 0, 0, some 420⟩ 420 0 rfl rfl
  exact ⟨by decide, by decide, by decide, by decide, h.2.2.1,
    (h.2.2.2.2 _).1⟩
